import Mathlib

/-!
A shallow embedding of `classes.py` (chessjerk).

This file translates the chess rules engine in `classes.py` into Lean
definitions and proves properties of the move-derivation pipeline
(`get_btwn`, the per-type in-bounds move generators, obstruction and
legality resolution, castling evaluation), the move executor
(`move_piece`), the terminal-state evaluator (`game_over_check`), the
bounded-collection class (`CustArray`), and board construction.

Modelling conventions:
* Python piece objects become records (`PieceSt`); squares' occupant
  references become a map `occ : Int × Int → Option Nat` from coordinates
  to piece identifiers, and the piece objects live in a total map
  `pieces : Nat → PieceSt` (a Python reference is never dangling, hence a
  total map; identifiers not on the board are junk and never consulted).
* The external randomness of `random.sample` and the interactive promotion
  prompt are passed as parameters.
* Machine integers are `Int`; Python `range` is rebuilt explicitly.
-/

set_option maxRecDepth 20000

namespace ChessJerk

inductive Color where
  | white
  | black
deriving DecidableEq, Repr

/-- `list(set(['black','white']) - set([k.color]))[0]` — the other color. -/
def otherColor : Color → Color
  | Color.white => Color.black
  | Color.black => Color.white

inductive PType where
  | pawn
  | rook
  | knight
  | bishop
  | queen
  | king
deriving DecidableEq, Repr

/-- The `'field', 'x', 'y'` record stored in every `CustArray`. -/
abbrev MoveT := String × Int × Int

/-- Python `list(range(a, b))`. -/
def rangeAsc (a b : Int) : List Int :=
  (List.range (b - a).toNat).map (fun i => a + i)

/-- Python `list(range(a, b, -1))`. -/
def rangeDesc (a b : Int) : List Int :=
  (List.range (a - b).toNat).map (fun i => a - i)

/-- `get_btwn(pos, new_pos)`: the squares strictly between two positions,
translated line by line from the source (ascending range, descending
fallback, length equalisation by replication, then zip). -/
def get_btwn (pos new_pos : Int × Int) : List (Int × Int) :=
  let x0 := rangeAsc (pos.1 + 1) new_pos.1
  let xb := if x0 = [] then rangeDesc (pos.1 - 1) new_pos.1 else x0
  let y0 := rangeAsc (pos.2 + 1) new_pos.2
  let yb := if y0 = [] then rangeDesc (pos.2 - 1) new_pos.2 else y0
  let xb2 := if xb.length < yb.length then List.replicate yb.length pos.1 else xb
  let yb2 := if xb2.length > yb.length then List.replicate xb2.length pos.2 else yb
  List.zip xb2 yb2

/-- A `Piece` object.  The `CustArray` attributes become plain lists; the
`has_moved` flag is the attribute `set_up_board_randomly` attaches
dynamically (absent, i.e. `false`, for every other piece). -/
structure PieceSt where
  color : Color
  ptype : PType
  x : Int
  y : Int
  hasMoved : Bool
  killList : List Nat
  ibMoves : List MoveT
  uoMoves : List MoveT
  vMoves : List MoveT
  hist : List MoveT
  backups : List MoveT
  backing_up : List MoveT
  targets : List MoveT
  threats : List MoveT
deriving DecidableEq, Repr

/-- `Piece.__init__`: fresh piece, every collection empty. -/
def mkPiece (c : Color) (t : PType) (x y : Int) : PieceSt :=
  ⟨c, t, x, y, false, [], [], [], [], [], [], [], [], []⟩

/-- `max(dest) <= 7 and min(dest) >= 0`. -/
def inBounds (d : Int × Int) : Bool :=
  d.1 ≤ 7 && d.2 ≤ 7 && 0 ≤ d.1 && 0 ≤ d.2

/-- Python `range(8)` as `Int`s. -/
def intRange8 : List Int := (List.range 8).map Int.ofNat

/-- `get_pawn_ib_moves`: forward single/double advance and the two diagonal
labels, kept only when in bounds (insertion order of the `moves` dict). -/
def get_pawn_ib_moves (p : PieceSt) : List MoveT :=
  let pn : Int := if p.color = Color.black then -1 else 1
  let pd : String := if p.color = Color.black then "s" else "n"
  let moves : List (String × Int × Int) :=
    [(pd ++ "_1", p.x, p.y + pn),
     (pd ++ "_2", p.x, p.y + pn * 2),
     (pd ++ "e_1", p.x + 1, p.y + pn),
     (pd ++ "w_1", p.x - 1, p.y + pn)]
  moves.filter (fun m => inBounds (m.2.1, m.2.2))

/-- `get_rook_ib_moves`: the four orthogonal rays, dict merge order
n, e, s, w; the label carries the destination coordinate. -/
def get_rook_ib_moves (p : PieceSt) : List MoveT :=
  let n := (intRange8.filter (fun i => i < p.y)).map (fun i => ("n_" ++ toString i, p.x, i))
  let e := (intRange8.filter (fun i => i > p.x)).map (fun i => ("e_" ++ toString i, i, p.y))
  let s := (intRange8.filter (fun i => i > p.y)).map (fun i => ("s_" ++ toString i, p.x, i))
  let w := (intRange8.filter (fun i => i < p.x)).map (fun i => ("w_" ++ toString i, i, p.y))
  n ++ e ++ s ++ w

/-- Python `range(1, 8)` as `Int`s. -/
def intRange17 : List Int := (List.range 7).map (fun i => Int.ofNat i + 1)

/-- `get_bishop_ib_moves`: the four diagonal rays, dict merge order
ne, se, sw, nw. -/
def get_bishop_ib_moves (p : PieceSt) : List MoveT :=
  let ne := (intRange17.filter (fun i => p.x + i < 8 && p.y - i > -1)).map
    (fun i => ("ne_" ++ toString i, p.x + i, p.y - i))
  let se := (intRange17.filter (fun i => p.x + i < 8 && p.y + i < 8)).map
    (fun i => ("se_" ++ toString i, p.x + i, p.y + i))
  let sw := (intRange17.filter (fun i => p.x - i > -1 && p.y + i < 8)).map
    (fun i => ("sw_" ++ toString i, p.x - i, p.y + i))
  let nw := (intRange17.filter (fun i => p.x - i > -1 && p.y - i > -1)).map
    (fun i => ("nw_" ++ toString i, p.x - i, p.y - i))
  ne ++ se ++ sw ++ nw

/-- `get_knight_ib_moves`: the eight L-jump offsets, filtered in bounds. -/
def get_knight_ib_moves (p : PieceSt) : List MoveT :=
  let diffs : List (String × Int × Int) :=
    [("nne_", 1, -2), ("ene_", 2, -1), ("ese_", 2, 1), ("sse_", 1, 2),
     ("ssw_", -1, 2), ("wsw_", -2, 1), ("wnw_", -2, -1), ("nnw_", -1, -2)]
  diffs.filterMap (fun d =>
    if inBounds (p.x + d.2.1, p.y + d.2.2) then
      some (d.1, p.x + d.2.1, p.y + d.2.2)
    else none)

/-- `get_king_ib_moves`: the eight adjacent offsets, filtered in bounds. -/
def get_king_ib_moves (p : PieceSt) : List MoveT :=
  let diffs : List (String × Int × Int) :=
    [("n_1", 0, -1), ("ne_1", 1, -1), ("e_1", 1, 0), ("se_1", 1, 1),
     ("s_1", 0, 1), ("sw_1", -1, 1), ("w_1", -1, 0), ("nw_1", -1, -1)]
  diffs.filterMap (fun d =>
    if inBounds (p.x + d.2.1, p.y + d.2.2) then
      some (d.1, p.x + d.2.1, p.y + d.2.2)
    else none)

/-- The type dispatch of `Piece.get_ib_moves` (queen = bishop then rook). -/
def gen_ib_moves (p : PieceSt) : List MoveT :=
  match p.ptype with
  | PType.pawn => get_pawn_ib_moves p
  | PType.rook => get_rook_ib_moves p
  | PType.knight => get_knight_ib_moves p
  | PType.bishop => get_bishop_ib_moves p
  | PType.queen => get_bishop_ib_moves p ++ get_rook_ib_moves p
  | PType.king => get_king_ib_moves p

/-- `Piece.get_ib_moves`: reset `ib_moves` and regenerate from the current
position (full replacement, no merge). -/
def get_ib_moves (p : PieceSt) : PieceSt :=
  { p with ibMoves := gen_ib_moves p }

/-- The `Chessboard` state: squares' occupant references (`occ`), the piece
objects keyed by identifier, the turn bookkeeping, the alive list and the
human-readable move-history log.  `nextId` allocates fresh identifiers for
pieces created by promotion or setup. -/
structure GState where
  occ : Int × Int → Option Nat
  pieces : Nat → PieceSt
  turn : Color
  nonturn : Color
  turn_num : Int
  last_capture_turn : Int
  alive : List Nat
  player_color : Color
  move_history : List String
  nextId : Nat

instance : Inhabited GState :=
  ⟨{ occ := fun _ => none, pieces := fun _ => mkPiece Color.white PType.pawn 0 0,
     turn := Color.white, nonturn := Color.black, turn_num := 1,
     last_capture_turn := 1, alive := [], player_color := Color.white,
     move_history := [], nextId := 0 }⟩

/-- `Chessboard.__init__` with the default arguments (white to move, white
human player). -/
def empty_gstate : GState := default

/-- Mutate one piece object in place. -/
def updPiece (s : GState) (i : Nat) (f : PieceSt → PieceSt) : GState :=
  { s with pieces := fun j => if j = i then f (s.pieces j) else s.pieces j }

/-- The square scan of `get_pieces`: x outer, y inner, occupied squares. -/
def board_scan (s : GState) : List Nat :=
  (List.range 8).flatMap (fun x =>
    (List.range 8).filterMap (fun y => s.occ (Int.ofNat x, Int.ofNat y)))

/-- `get_pieces(piece_type, color)`: scan, then remove wrong colors, then
remove wrong types; an empty filter list means no restriction. -/
def get_pieces (s : GState) (types : List PType) (colors : List Color) : List Nat :=
  let l1 := board_scan s
  let l2 := if colors = [] then l1 else l1.filter (fun i => (s.pieces i).color ∈ colors)
  if types = [] then l2 else l2.filter (fun i => (s.pieces i).ptype ∈ types)

/-- `get_alive_pieces`: rebuild the alive list from the board scan. -/
def allTypes : List PType :=
  [PType.pawn, PType.rook, PType.knight, PType.bishop, PType.queen, PType.king]

def get_alive_pieces (s : GState) : GState :=
  { s with alive := get_pieces s allTypes [] }

/-- `Chessboard.get_ib_moves`: reset and regenerate every alive piece's
in-bounds moves. -/
def get_ib_all (s : GState) : GState :=
  s.alive.foldl (fun acc i => updPiece acc i get_ib_moves) s

/-- `reset_info`: clear the six derived collections of every alive piece. -/
def clearDerived (p : PieceSt) : PieceSt :=
  { p with uoMoves := [], vMoves := [], backups := [], backing_up := [],
           targets := [], threats := [] }

def reset_info (s : GState) : GState :=
  s.alive.foldl (fun acc i => updPiece acc i clearDerived) s

/-- The per-piece body of `get_unobstructed_moves`: knights and kings pass
their in-bounds moves through; every other type (pawns included — the
source `else` branch) keeps a move only if every square strictly between
origin and destination is unoccupied. -/
def uoCompute (occ : Int × Int → Option Nat) (p : PieceSt) : List MoveT :=
  if p.ptype = PType.knight ∨ p.ptype = PType.king then p.ibMoves
  else p.ibMoves.filter
    (fun m => (get_btwn (p.x, p.y) (m.2.1, m.2.2)).all (fun q => (occ q).isNone))

def uoStep (acc : GState) (i : Nat) : GState :=
  updPiece acc i (fun p => { p with uoMoves := p.uoMoves ++ uoCompute acc.occ p })

/-- `get_unobstructed_moves` over the alive list. -/
def get_unobstructed_moves (s : GState) : GState :=
  s.alive.foldl uoStep s

/-- Python `move.split('_')`, on the character list of a label. -/
def splitUnd : List Char → List (List Char)
  | [] => [[]]
  | c :: cs =>
    if c = '_' then [] :: splitUnd cs
    else
      match splitUnd cs with
      | [] => [[c]]
      | g :: gs => (c :: g) :: gs

/-- Python `move.split('_')[-1]`. -/
def lastSplitUnd (s : String) : String :=
  ⟨(splitUnd s.data).getLastD []⟩

/-- Python `'2' in move`. -/
def containsTwo (s : String) : Bool :=
  s.data.contains '2'

/-- The name strings used in the 'field' slot of targets/threats/backups. -/
def typeName : PType → String
  | PType.pawn => "pawn"
  | PType.rook => "rook"
  | PType.knight => "knight"
  | PType.bishop => "bishop"
  | PType.queen => "queen"
  | PType.king => "king"

/-- The body of the `for move, x, y in piece.uo_moves` loop of
`get_valid_pawn_moves`: single advance onto empty; double advance onto
empty with empty history; diagonal (label length 4) as attack, backup, or
en passant via the neighbour at the pawn's own rank and the destination's
file. -/
def pawnMoveStep (s : GState) (pid : Nat) (m : MoveT) : GState :=
  let p := s.pieces pid
  let x := m.2.1
  let y := m.2.2
  if (m.1 = "s_1" ∨ m.1 = "n_1") ∧ s.occ (x, y) = none then
    updPiece s pid (fun q => { q with vMoves := q.vMoves ++ [m] })
  else if lastSplitUnd m.1 = "2" ∧ p.hist.length = 0 then
    if s.occ (x, y) = none then
      updPiece s pid (fun q => { q with vMoves := q.vMoves ++ [m] })
    else s
  else if m.1.length = 4 then
    match s.occ (x, y) with
    | some oid =>
      if (s.pieces oid).color ≠ p.color then
        let s1 := updPiece s pid (fun q =>
          { q with vMoves := q.vMoves ++ [m],
                   targets := q.targets ++ [(typeName (s.pieces oid).ptype, x, y)] })
        updPiece s1 oid (fun q =>
          { q with threats := q.threats ++ [(typeName p.ptype, p.x, p.y)] })
      else
        let s1 := updPiece s oid (fun q =>
          { q with backups := q.backups ++ [(typeName p.ptype, p.x, p.y)] })
        updPiece s1 pid (fun q =>
          { q with backing_up := q.backing_up ++ [(typeName (s.pieces oid).ptype, x, y)] })
    | none =>
      match s.occ (x, p.y) with
      | some nid =>
        if (s.pieces nid).color ≠ p.color ∧ (s.pieces nid).ptype = PType.pawn ∧
            (s.pieces nid).hist.length = 1 ∧
            containsTwo ((s.pieces nid).hist.headD ("", 0, 0)).1 = true then
          let s1 := updPiece s pid (fun q =>
            { q with vMoves := q.vMoves ++ [m],
                     targets := q.targets ++ [(typeName (s.pieces nid).ptype, x, y)] })
          updPiece s1 nid (fun q =>
            { q with threats := q.threats ++ [(typeName p.ptype, p.x, p.y)] })
        else s
      | none => s
  else s

/-- `get_valid_pawn_moves` for one pawn (loops over its unobstructed moves,
which the loop body never modifies). -/
def get_valid_pawn_moves (s : GState) (pid : Nat) : GState :=
  ((s.pieces pid).uoMoves).foldl (fun acc m => pawnMoveStep acc pid m) s

/-- The loop body of `get_valid_other_moves`: enemy destination is a valid
capture with target/threat bookkeeping, ally destination records
backup/backing-up, empty destination is a plain valid move. -/
def otherMoveStep (s : GState) (pid : Nat) (m : MoveT) : GState :=
  let p := s.pieces pid
  let x := m.2.1
  let y := m.2.2
  match s.occ (x, y) with
  | some oid =>
    if (s.pieces oid).color ≠ p.color then
      let s1 := updPiece s pid (fun q =>
        { q with vMoves := q.vMoves ++ [m],
                 targets := q.targets ++ [(typeName (s.pieces oid).ptype, x, y)] })
      updPiece s1 oid (fun q =>
        { q with threats := q.threats ++ [(typeName p.ptype, p.x, p.y)] })
    else
      let s1 := updPiece s oid (fun q =>
        { q with backups := q.backups ++ [(typeName p.ptype, p.x, p.y)] })
      updPiece s1 pid (fun q =>
        { q with backing_up := q.backing_up ++ [(typeName (s.pieces oid).ptype, x, y)] })
  | none =>
    updPiece s pid (fun q => { q with vMoves := q.vMoves ++ [m] })

/-- `get_valid_other_moves` for one non-pawn piece. -/
def get_valid_other_moves (s : GState) (pid : Nat) : GState :=
  ((s.pieces pid).uoMoves).foldl (fun acc m => otherMoveStep acc pid m) s

/-- `get_valid_moves`: dispatch by piece type over the alive list. -/
def get_valid_moves (s : GState) : GState :=
  s.alive.foldl (fun acc i =>
    if (acc.pieces i).ptype = PType.pawn then get_valid_pawn_moves acc i
    else get_valid_other_moves acc i) s

/-- `are_squares_safe(square_list, color)`: false iff some piece of `c` has
a valid move whose destination is among the squares' positions. -/
def are_squares_safe (s : GState) (pos_list : List (Int × Int)) (c : Color) : Bool :=
  (get_pieces s [] [c]).all (fun i =>
    ((s.pieces i).vMoves).all (fun m => !(decide ((m.2.1, m.2.2) ∈ pos_list))))

/-- One entry of the `zip(rooks, safe_sqs, emp_sqs, moves)` loop of
`get_valid_castles`: skip unless the corner occupant exists with empty
history and the intervening squares were empty; then, if the transit
squares are safe from `c`, append the castle move (destination
`(sqs[0], y)`) to the candidate king's valid moves. -/
def castleSide (s : GState) (kid : Nat) (c : Color) (y : Int) (rid? : Option Nat)
    (sqs : List Int) (emp : Bool) (mv : String) : GState :=
  match rid? with
  | none => s
  | some rid =>
    if (s.pieces rid).hist.length ≠ 0 then s
    else if !emp then s
    else if are_squares_safe s (sqs.map (fun a => (a, y))) c then
      updPiece s kid (fun p => { p with vMoves := p.vMoves ++ [(mv, sqs.headD 0, y)] })
    else s

/-- One iteration of the `for k in [self[4,0].occ, self[4,7].occ]` loop:
the occupant of the square is the castling candidate purely by position
and empty history — its type and color are never examined. -/
def castleStep (s : GState) (sq : Int × Int) : GState :=
  match s.occ sq with
  | none => s
  | some kid =>
    if (s.pieces kid).hist.length ≠ 0 then s
    else
      let y := (s.pieces kid).y
      let c := otherColor (s.pieces kid).color
      let empq := (s.occ (1, y)).isNone && (s.occ (2, y)).isNone && (s.occ (3, y)).isNone
      let empk := (s.occ (5, y)).isNone && (s.occ (6, y)).isNone
      let s1 := castleSide s kid c y (s.occ (0, y)) [2, 3, 4] empq "c_q"
      castleSide s1 kid c y (s.occ (7, y)) [6, 5, 4] empk "c_k"

/-- `get_valid_castles`: the two candidate squares, (4,0) first. -/
def get_valid_castles (s : GState) : GState :=
  castleStep (castleStep s (4, 0)) (4, 7)

/-- The full recomputation tail of `move_piece` (steps: `reset_info`,
`get_unobstructed_moves`, `get_valid_moves`, `get_valid_castles`). -/
def board_refresh (s : GState) : GState :=
  get_valid_castles (get_valid_moves (get_unobstructed_moves (reset_info s)))

/-- `piece.symbol`: color initial, underscore, capitalised type. -/
def colorInitial : Color → String
  | Color.white => "W"
  | Color.black => "B"

def typeTitle : PType → String
  | PType.pawn => "Pawn"
  | PType.rook => "Rook"
  | PType.knight => "Knight"
  | PType.bishop => "Bishop"
  | PType.queen => "Queen"
  | PType.king => "King"

def symbolStr (p : PieceSt) : String :=
  colorInitial p.color ++ "_" ++ typeTitle p.ptype

/-- `lookup_dict[pos].replace('_', '').upper()`: file letter plus 1-based
rank, e.g. (0,0) ↦ "A1". -/
def fileStr (x : Int) : String :=
  (["A", "B", "C", "D", "E", "F", "G", "H"].getD x.toNat "?")

def posString (q : Int × Int) : String :=
  fileStr q.1 ++ toString (q.2 + 1)

/-- `piece.v_moves.filt([('x', dest[0]), ('y', dest[1])])[0][0]`: the label
of the first valid move with the given destination. -/
def lookupMove (vm : List MoveT) (dest : Int × Int) : Option String :=
  ((vm.filter (fun m => m.2.1 = dest.1 ∧ m.2.2 = dest.2)).head?).map (fun m => m.1)

/-- `move_piece` lines 481–505: resolve a destination capture (alive
removal, capture log, history record, ply-of-last-capture), relocate the
mover on the board, toggle whose-turn, increment the ply counter, update
the piece's position, append the executed move record to its history (the
whole `filt` result, a single record whenever destinations are unique per
piece), and regenerate its in-bounds moves. -/
def exec_core (s : GState) (pid : Nat) (dest : Int × Int) : GState :=
  let p := s.pieces pid
  let origin := posString (p.x, p.y)
  let destS := posString dest
  let s1 :=
    match s.occ dest with
    | some did =>
      { s with alive := s.alive.erase did,
               move_history := s.move_history ++
                 [symbolStr p ++ " " ++ origin ++ " > " ++ destS ++ ": " ++
                  symbolStr (s.pieces did) ++ " captured."],
               last_capture_turn := s.turn_num,
               pieces := fun j =>
                 if j = pid then
                   { s.pieces pid with killList := (s.pieces pid).killList ++ [did] }
                 else s.pieces j }
    | none =>
      { s with move_history := s.move_history ++
          [symbolStr p ++ " " ++ origin ++ " > " ++ destS ++ ": No capture."] }
  let s2 :=
    { s1 with occ := fun q => if q = dest then some pid
                              else if q = (p.x, p.y) then none
                              else s1.occ q,
              turn := s1.nonturn, nonturn := s1.turn,
              turn_num := s1.turn_num + 1 }
  updPiece s2 pid (fun q => get_ib_moves
    { q with x := dest.1, y := dest.2,
             hist := q.hist ++ q.vMoves.filter
               (fun m => m.2.1 = dest.1 ∧ m.2.2 = dest.2) })

/-- The swap-back of turn and ply that precedes the recursive rook
relocation of a castle. -/
def undo_ply (s : GState) : GState :=
  { s with turn := s.nonturn, nonturn := s.turn, turn_num := s.turn_num - 1 }

/-- `move_piece` lines 521–546 (pawn promotion).  The interactive prompt
(re-asking on invalid input, `quit` aborting the session) is the external
promotion collaborator; its already-validated answer is the `promo`
parameter, used only when `human` is true, while a non-human mover always
promotes to a queen.  A fresh object is created at the destination, made
the square's occupant, appended to the alive list and given its in-bounds
moves; `del piece` deletes only the local Python name, so nothing else
happens to the original pawn. -/
def promo_step (s : GState) (pid : Nat) (dest : Int × Int) (human : Bool)
    (promo : PType) : GState :=
  if (s.pieces pid).ptype = PType.pawn ∧ (dest.2 = 0 ∨ dest.2 = 7) then
    let prType := if human then promo else PType.queen
    let px := (s.pieces pid).x
    let py := (s.pieces pid).y
    let nid := s.nextId
    let np := get_ib_moves (mkPiece (s.pieces pid).color prType px py)
    { s with occ := fun q => if q = (px, py) then some nid else s.occ q,
             pieces := fun j => if j = nid then np else s.pieces j,
             alive := s.alive ++ [nid],
             nextId := nid + 1 }
  else s

/-- `move_piece(piece, dest, validate, printer, human)`.  `none` models the
fatal paths (failed `assert`, `IndexError` on an empty `filt` result,
`AttributeError` on a missing rook).  The `fuel` argument bounds the
recursion depth of the castle branch; the recursive rook relocation looks
its move up by destination (5,y) or (3,y), never a castle label whose
destinations are (6,y)/(2,y), so depth 1 always suffices and any fuel ≥ 2
is faithful.  The printing and the final check computation are
presentation only and return no state. -/
def move_piece : Nat → GState → Nat → Int × Int → Bool → Bool → PType → Option GState
  | 0, _, _, _, _, _, _ => none
  | Nat.succ fuel, s, pid, dest, validate, human, promo =>
    if validate ∧ ¬(dest ∈ (s.pieces pid).vMoves.map (fun m => (m.2.1, m.2.2)) ∧
        (s.pieces pid).color = s.turn) then none
    else
      match lookupMove (s.pieces pid).vMoves dest with
      | none => none
      | some mv =>
        if mv = "c_k" ∨ mv = "c_q" then
          match (exec_core s pid dest).occ
              (if mv = "c_k" then ((7 : Int), dest.2) else ((0 : Int), dest.2)) with
          | none => none
          | some rid =>
            match move_piece fuel (undo_ply (exec_core s pid dest)) rid
                (if mv = "c_k" then ((5 : Int), dest.2) else ((3 : Int), dest.2))
                false true promo with
            | none => none
            | some s5 =>
              some (board_refresh (promo_step
                { s5 with move_history := s5.move_history.dropLast }
                pid dest human promo))
        else
          some (board_refresh (promo_step (exec_core s pid dest) pid dest human promo))

/-- `game_over_check` material lists: one pass over the alive list,
splitting piece types by color against the human player's color. -/
def ai_types (s : GState) : List PType :=
  (s.alive.filter (fun i => (s.pieces i).color ≠ s.player_color)).map
    (fun i => (s.pieces i).ptype)

def human_types (s : GState) : List PType :=
  (s.alive.filter (fun i => (s.pieces i).color = s.player_color)).map
    (fun i => (s.pieces i).ptype)

def draw_string : String := "The game is a draw due to the 50-move rule."

def resign_string : String := "You resign. Checkmate is trivial at this point."

/-- `game_over_check`: the 50-move draw first, then the heuristic
resignation chain over the AI's material when the human has at most one
piece left. -/
def game_over_check (s : GState) : Bool × String :=
  if s.turn_num - s.last_capture_turn ≥ 100 then (true, draw_string)
  else if (human_types s).length > 1 then (false, "")
  else if PType.queen ∈ ai_types s ∨ PType.rook ∈ ai_types s then (true, resign_string)
  else if 2 ≤ (ai_types s).count PType.bishop then (true, resign_string)
  else if PType.knight ∈ ai_types s ∧ PType.bishop ∈ ai_types s then (true, resign_string)
  else (false, "")

/-- The heuristic-resignation condition as the specification words it: the
human side's alive pieces are only its king, and the AI's remaining
material includes a queen or rook, or two or more bishops, or a knight
together with a bishop.  Stated independently of `game_over_check` to be
compared with it. -/
def resign_spec (s : GState) : Prop :=
  human_types s = [PType.king] ∧
    (PType.queen ∈ ai_types s ∨ PType.rook ∈ ai_types s ∨
     2 ≤ (ai_types s).count PType.bishop ∨
     (PType.knight ∈ ai_types s ∧ PType.bishop ∈ ai_types s))

instance (s : GState) : Decidable (resign_spec s) := by
  unfold resign_spec; infer_instance

/-- The resignation condition the code actually implements: the human
side has AT MOST ONE alive piece (the `len(human_pieces) > 1` test — the
code never verifies that the remaining piece, if any, is the king), and
the AI material condition.  Stated independently of `game_over_check` to
be compared with it. -/
def resign_amended (s : GState) : Prop :=
  (human_types s).length ≤ 1 ∧
    (PType.queen ∈ ai_types s ∨ PType.rook ∈ ai_types s ∨
     2 ≤ (ai_types s).count PType.bishop ∨
     (PType.knight ∈ ai_types s ∧ PType.bishop ∈ ai_types s))

instance (s : GState) : Decidable (resign_amended s) := by
  unfold resign_amended; infer_instance

/-- `CustArray.size_dict` (a KeyError on any other string; only these nine
keys occur in the source, the default 0 is never consulted). -/
def cust_size_dict (t : String) : Nat :=
  if t = "ib_moves" then 27
  else if t = "uo_moves" then 27
  else if t = "v_moves" then 27
  else if t = "hist" then 100
  else if t = "sq_tgts" then 27
  else if t = "backing_up" then 15
  else if t = "backups" then 15
  else if t = "targets" then 8
  else if t = "threats" then 16
  else 0

/-- A `CustArray`: the numpy backing cells (`none` models the
uninitialised `np.empty` garbage) and the logical length. -/
structure CustArrayM where
  array_type : String
  data : List (Option MoveT)
  len : Nat
deriving DecidableEq, Repr

/-- `CustArray.__init__`: a backing array of `size_dict[array_type]`
uninitialised cells, length 0. -/
def cust_init (t : String) : CustArrayM :=
  ⟨t, List.replicate (cust_size_dict t) none, 0⟩

/-- `CustArray.add`: `np.insert(self.array, self.len, obj)` returns a NEW
array one cell longer with `obj` inserted at index `self.len` — since
`self.len` never exceeds the backing length, the insert always succeeds,
whatever the declared capacity; then `self.len += 1`. -/
def cust_add (a : CustArrayM) (m : MoveT) : CustArrayM :=
  { a with data := a.data.insertIdx a.len (some m), len := a.len + 1 }

def cust_add_all (a : CustArrayM) (ms : List MoveT) : CustArrayM :=
  ms.foldl cust_add a

/-- The piece layout list of `set_up_board_randomly`:
`['rook','knight','bishop']*2 + ['king','queen'] + ['pawn']*8`. -/
def piece_list_rand : List PType :=
  [PType.rook, PType.knight, PType.bishop, PType.rook, PType.knight, PType.bishop,
   PType.king, PType.queen] ++ List.replicate 8 PType.pawn

/-- `set_up_board_randomly`.  As written the source method raises
`UnboundLocalError` before placing anything (`color_list` is assigned
inside the method, so the read of `color_list` on the same line's
right-hand side hits the unbound local, shadowing the module-level list);
this model lets it proceed as evidently intended.  `sample`'s randomness
is passed in: `pos_list` stands for `sample(full_pos_list, 32)` and
`c1, c2` for `sample(color_list, 2)` (then `np.repeat(..., 16)`).  Each
placed piece is a fresh `Piece` whose `has_moved` attribute is set to
`True` — and whose move history `hist` is, as for every fresh piece,
empty. -/
def set_up_board_randomly (s : GState) (pos_list : List (Int × Int))
    (c1 c2 : Color) : GState :=
  let colors := List.replicate 16 c1 ++ List.replicate 16 c2
  (colors.zip (pos_list.zip (piece_list_rand ++ piece_list_rand))).foldl
    (fun acc cp =>
      let nid := acc.nextId
      { acc with
          occ := fun q => if q = cp.2.1 then some nid else acc.occ q,
          pieces := fun j =>
            if j = nid then
              { mkPiece cp.1 cp.2.2 cp.2.1.1 cp.2.1.2 with hasMoved := true }
            else acc.pieces j,
          nextId := nid + 1 }) s

/-- `full_set_up(mode="random")`: random placement, then the derivation
pipeline (`get_alive_pieces`, `get_ib_moves`, `get_unobstructed_moves`,
`get_valid_moves`, `get_valid_castles`). -/
def full_set_up_random (pos_list : List (Int × Int)) (c1 c2 : Color) : GState :=
  get_valid_castles (get_valid_moves (get_unobstructed_moves
    (get_ib_all (get_alive_pieces
      (set_up_board_randomly empty_gstate pos_list c1 c2)))))

/-- The square-color assignment of `Chessboard.__init__`: `flipper` starts
at 0 and is complemented after every constructed square, rows built rank
by rank (y outer, x inner), colors `['white','black'][flipper]`.  Returns
the colors keyed by (x, y). -/
def init_square_colors : List ((Nat × Nat) × Color) :=
  ((List.range 8).foldl (fun acc y =>
    (List.range 8).foldl (fun acc2 x =>
      (acc2.1 ++ [((x, y), if acc2.2 = (0 : Int) then Color.white else Color.black)],
       acc2.2 * (-1) + 1)) acc) (([], 0) : List ((Nat × Nat) × Color) × Int)).1

/-- The color of the square at (x, y) as constructed. -/
def square_color (x y : Nat) : Option Color :=
  (init_square_colors.lookup (x, y))

/-- The turn-bookkeeping fields (`turn`, `nonturn`, `turn_num`) of two
states agree — the invariant every recomputation step preserves. -/
abbrev ctlEq (s t : GState) : Prop :=
  t.turn = s.turn ∧ t.nonturn = s.nonturn ∧ t.turn_num = s.turn_num

/-! ## Concrete states used by the claim theorems and witnesses -/

def c1_raw : GState :=
  { empty_gstate with
      occ := fun q => if q = ((0 : Int), (1 : Int)) then some 0
                      else if q = ((1 : Int), (3 : Int)) then some 1
                      else if q = ((7 : Int), (6 : Int)) then some 2
                      else none,
      pieces := fun j =>
        if j = 0 then mkPiece Color.white PType.pawn 0 1
        else if j = 1 then mkPiece Color.black PType.pawn 1 3
        else if j = 2 then mkPiece Color.black PType.pawn 7 6
        else mkPiece Color.white PType.pawn 0 0,
      alive := [0, 1, 2],
      nextId := 3 }

def c1_s0 : GState :=
  get_valid_castles (get_valid_moves (get_unobstructed_moves (get_ib_all c1_raw)))

def c1_s1 : GState := (move_piece 2 c1_s0 0 (0, 3) true true PType.queen).getD default

def c1_after : Option GState := move_piece 2 c1_s1 1 (0, 2) true true PType.queen

def c2_raw : GState :=
  { empty_gstate with
      occ := fun q => if q = ((0 : Int), (6 : Int)) then some 0 else none,
      pieces := fun j =>
        if j = 0 then mkPiece Color.white PType.pawn 0 6
        else mkPiece Color.white PType.pawn 0 0,
      alive := [0],
      nextId := 1 }

def c2_s0 : GState :=
  get_valid_castles (get_valid_moves (get_unobstructed_moves (get_ib_all c2_raw)))

def c2_after : Option GState := move_piece 2 c2_s0 0 (0, 7) true false PType.queen

def c4_raw : GState :=
  { empty_gstate with
      occ := fun q => if q = ((0 : Int), (1 : Int)) then some 0
                      else if q = ((1 : Int), (3 : Int)) then some 1
                      else if q = ((7 : Int), (6 : Int)) then some 2
                      else none,
      pieces := fun j =>
        if j = 0 then mkPiece Color.white PType.pawn 0 1
        else if j = 1 then mkPiece Color.black PType.pawn 1 3
        else if j = 2 then mkPiece Color.black PType.pawn 7 6
        else mkPiece Color.white PType.pawn 0 0,
      alive := [0, 1, 2],
      nextId := 3 }

def c4_s0 : GState :=
  get_valid_castles (get_valid_moves (get_unobstructed_moves (get_ib_all c4_raw)))

def c4_s1 : GState := (move_piece 2 c4_s0 0 (0, 3) true true PType.queen).getD default

def c4_after : Option GState := move_piece 2 c4_s1 2 (7, 5) true true PType.queen

def c7_pos_sample : List (Int × Int) :=
  [(0, 4), (1, 4), (2, 4), (3, 4), (4, 4), (5, 4), (6, 4), (7, 4),
   (0, 1), (1, 5), (2, 5), (3, 5), (4, 5), (5, 5), (6, 5), (7, 5),
   (0, 6), (1, 6), (2, 6), (3, 6), (4, 6), (5, 6), (6, 6), (7, 6),
   (0, 7), (1, 7), (2, 7), (3, 7), (4, 7), (5, 7), (6, 7), (7, 7)]

def c7_state : GState := full_set_up_random c7_pos_sample Color.white Color.black

def c10_state : GState :=
  { empty_gstate with
      occ := fun q => if q = ((4 : Int), (0 : Int)) then some 0
                      else if q = ((0 : Int), (0 : Int)) then some 1
                      else none,
      pieces := fun j =>
        if j = 0 then mkPiece Color.black PType.knight 4 0
        else mkPiece Color.white PType.rook 0 0,
      alive := [0, 1],
      nextId := 2 }

def c8_state : GState :=
  { empty_gstate with
      pieces := fun j => if j = 0 then mkPiece Color.white PType.king 0 0
                         else mkPiece Color.black PType.queen 7 7,
      alive := [0, 1],
      turn_num := 5,
      last_capture_turn := 1 }

def c8_cex_state : GState :=
  { empty_gstate with
      pieces := fun j => if j = 0 then mkPiece Color.white PType.bishop 0 0
                         else mkPiece Color.black PType.queen 7 7,
      alive := [0, 1],
      turn_num := 5,
      last_capture_turn := 1 }

def c3_raw : GState :=
  { empty_gstate with
      occ := fun q => if q = ((0 : Int), (0 : Int)) then some 0 else none,
      pieces := fun j =>
        if j = 0 then mkPiece Color.white PType.rook 0 0
        else mkPiece Color.white PType.pawn 0 0,
      alive := [0],
      nextId := 1 }

def c3_s0 : GState :=
  get_valid_castles (get_valid_moves (get_unobstructed_moves (get_ib_all c3_raw)))

def c3_res : GState := (move_piece 2 c3_s0 0 (0, 5) true true PType.queen).getD default

def c5_raw : GState :=
  { empty_gstate with
      occ := fun q => if q = ((0 : Int), (1 : Int)) then some 0
                      else if q = ((0 : Int), (2 : Int)) then some 1
                      else none,
      pieces := fun j =>
        if j = 0 then get_ib_moves (mkPiece Color.white PType.pawn 0 1)
        else get_ib_moves (mkPiece Color.black PType.rook 0 2),
      alive := [0, 1],
      nextId := 2 }

def c5_wit : GState :=
  { empty_gstate with
      occ := fun q => if q = ((3 : Int), (3 : Int)) then some 0
                      else if q = ((3 : Int), (4 : Int)) then some 1
                      else none,
      pieces := fun j =>
        if j = 0 then get_ib_moves (mkPiece Color.white PType.knight 3 3)
        else get_ib_moves (mkPiece Color.black PType.rook 3 4),
      alive := [0, 1],
      nextId := 2 }

/-! ## Concrete scenario: en passant execution (C1)

A white pawn on a2 and black pawns on b4 and h7.  White double-advances
a2→a4; the recomputation then marks the black b4 pawn's diagonal move to
a3 valid (the en passant of `get_valid_pawn_moves`), and black executes
it. -/

/-- C1. The black pawn's recomputed valid moves contain the en-passant
diagonal ("sw_1" onto the empty square a3), its history shows the white
pawn's single recorded move was the double advance — yet executing the
diagonal move leaves the white pawn in the alive list, appends nothing to
the mover's capture log, and records "No capture." in the move-history
log: `move_piece` resolves only the (empty) destination square and never
removes the adjacent pawn.  This refutes the claim that the move executor
captures the adjacent enemy pawn. -/
theorem en_passant_exec_no_capture :
    (("sw_1", (0 : Int), (2 : Int)) ∈ (c1_s1.pieces 1).vMoves ∧
      (c1_s1.pieces 0).hist = [("n_2", 0, 3)]) ∧
    c1_after.map (fun s =>
        (decide (0 ∈ s.alive), s.alive, (s.pieces 1).killList,
         s.move_history.getLastD "")) =
      some (true, [0, 1, 2], [], "B_Pawn B4 > A3: No capture.") := by
  constructor
  · exact ⟨by decide, by decide⟩
  · decide

/-! ## Concrete scenario: pawn promotion (C2)

A lone white pawn on a7 advances to a8 with a non-human mover, promoting
to a queen. -/

/-- C2. After the promoting move the new queen (identifier 1) is
created at a8, occupies the square and is in the alive list — but the
original pawn (identifier 0) is STILL a member of the alive list:
`del piece` only deletes the local Python name and `move_piece` never
removes the pawn object from `self.alive`.  This refutes the claim that
the original pawn is no longer a member of the board's alive list after
the call. -/
theorem promotion_pawn_remains_alive :
    c2_after.map (fun s =>
        (s.alive, s.occ (0, 7), (s.pieces 1).ptype, (s.pieces 1).x,
         (s.pieces 1).y, (s.pieces 0).ptype)) =
      some ([0, 1], some 1, PType.queen, 0, 7, PType.pawn) := by
  decide

/-! ## Concrete scenario: the en-passant window (C4)

Same position as C1, but after white's double advance black plays an
unrelated move (h7→h6) — one additional intervening ply with the
double-advanced pawn untouched — and the board is fully recomputed. -/

/-- C4. One ply after the double advance (black having moved the h7
pawn instead), the recomputed valid-move set of the b4 pawn STILL contains
the en-passant diagonal ("sw_1" to a3): the eligibility test reads only
the neighbour's total move history (length one, a double advance), which
an intervening ply leaves untouched, so the one-ply window of the claim is
not enforced by the code. -/
theorem en_passant_window_persists :
    c4_after.map (fun s =>
        (decide (("sw_1", (0 : Int), (2 : Int)) ∈ (s.pieces 1).vMoves),
         (s.pieces 0).hist, s.turn)) =
      some (true, [("n_2", 0, 3)], Color.white) := by
  decide

/-! ## Concrete scenario: random setup (C7)

The 32 sampled positions put the first white pawn (identifier 8) on a2
with a3 and a4 free. -/

/-- C7. After random setup the placed pawn carries `has_moved = True`
— but its move history is empty (`has_moved` is an attribute nothing in
the source reads), so the double-advance rule of `get_valid_pawn_moves`,
which keys on `hist.len == 0`, still grants the pawn its double advance
("n_2" to a4).  This refutes the claim that random setup marks each
piece's move history as non-empty so that no pawn is eligible for a
double advance.  (The source method moreover raises `UnboundLocalError`
on every call, before placing anything — see the model's comment.) -/
theorem random_setup_double_advance :
    ((c7_state.pieces 8).hasMoved, (c7_state.pieces 8).hist,
     decide (("n_2", (0 : Int), (3 : Int)) ∈ (c7_state.pieces 8).vMoves)) =
      (true, [], true) := by
  decide

/-! ## CustArray capacity (C6) -/

/-- C6 counterexample. Adding a 28th element to a capacity-27
`ib_moves` array silently succeeds: no error is raised (`np.insert` at
index `len` is always in range and returns a grown array), the logical
length reaches 28 > 27 and the backing array has grown to 55 cells. -/
theorem cust_add_over_capacity_cex :
    (cust_add_all (cust_init "ib_moves") (List.replicate 28 ("n_1", 0, 0))).len = 28 ∧
    cust_size_dict "ib_moves" = 27 ∧
    (cust_add_all (cust_init "ib_moves")
        (List.replicate 28 ("n_1", 0, 0))).data.length = 55 := by
  refine ⟨by decide, by decide, by decide⟩

theorem cust_add_all_len (a : CustArrayM) (ms : List MoveT) :
    (cust_add_all a ms).len = a.len + ms.length := by
  induction ms generalizing a with
  | nil => simp [cust_add_all]
  | cons m t ih =>
    show (cust_add_all (cust_add a m) t).len = a.len + (t.length + 1)
    rw [ih (cust_add a m)]
    simp [cust_add]
    omega

/-- C6 amended. `CustArray.add` never fails: after any sequence of
adds, of any length, the logical length equals exactly the number of adds
— in particular lengths beyond the declared capacity are reached silently,
with no error raised; nothing in the class enforces the capacity. -/
theorem cust_add_silent (ms : List MoveT) (t : String) :
    (cust_add_all (cust_init t) ms).len = ms.length := by
  rw [cust_add_all_len]
  simp [cust_init]

/-- Witness: the amended statement evaluated at a 30-element add sequence
on a capacity-8 `targets`-style array. -/
theorem cust_add_silent_witness :
    (cust_add_all (cust_init "targets") (List.replicate 30 ("e_1", 1, 1))).len = 30 :=
  cust_add_silent (List.replicate 30 ("e_1", 1, 1)) "targets"

/-! ## Square colors (C9) -/

/-- C9. The squares (0,0) and (0,1) — coordinates differing by one in
rank only — are assigned the SAME color (both 'white'): `flipper` is
complemented once per square and never reset between ranks, and a rank
holds an even number of squares, so the color a square receives depends
only on its file, not on file+rank parity.  This refutes the claim that
such adjacent squares always have opposite colors. -/
theorem square_colors_same_file :
    square_color 0 0 = some Color.white ∧
    square_color 0 1 = some Color.white ∧
    square_color 1 0 = some Color.black ∧
    square_color 1 1 = some Color.black := by
  refine ⟨by decide, by decide, by decide, by decide⟩

/-! ## Castling eligibility ignores piece identity (C10)

`get_valid_castles` loops over the occupants of (4,0) and (4,7) and the
corner occupants of the occupant's own rank, checking only move-history
emptiness, intervening-square emptiness and transit-square safety — never
that the central piece is a king, that the corner piece is a rook, nor
that they share a color. -/

theorem updPiece_pieces_self (s : GState) (i : Nat) (f : PieceSt → PieceSt) :
    (updPiece s i f).pieces i = f (s.pieces i) := by
  simp [updPiece]

theorem updPiece_pieces_ne (s : GState) (i j : Nat) (f : PieceSt → PieceSt)
    (h : j ≠ i) : (updPiece s i f).pieces j = s.pieces j := by
  simp [updPiece, h]

/-- `castleSide` either leaves the state unchanged or appends exactly one
castle move to the candidate's valid moves. -/
theorem castleSide_cases (s : GState) (kid : Nat) (c : Color) (y : Int)
    (r : Option Nat) (sqs : List Int) (emp : Bool) (mv : String) :
    castleSide s kid c y r sqs emp mv = s ∨
    castleSide s kid c y r sqs emp mv =
      updPiece s kid (fun p => { p with vMoves := p.vMoves ++ [(mv, sqs.headD 0, y)] }) := by
  unfold castleSide
  repeat' split
  all_goals first | exact Or.inl rfl | exact Or.inr rfl

theorem castleSide_occ (s : GState) (kid : Nat) (c : Color) (y : Int)
    (r : Option Nat) (sqs : List Int) (emp : Bool) (mv : String) :
    (castleSide s kid c y r sqs emp mv).occ = s.occ := by
  rcases castleSide_cases s kid c y r sqs emp mv with h | h
  · rw [h]
  · rw [h]
    rfl

theorem castleSide_hist (s : GState) (kid : Nat) (c : Color) (y : Int)
    (r : Option Nat) (sqs : List Int) (emp : Bool) (mv : String) (j : Nat) :
    ((castleSide s kid c y r sqs emp mv).pieces j).hist = (s.pieces j).hist := by
  rcases castleSide_cases s kid c y r sqs emp mv with h | h <;> rw [h]
  by_cases hj : j = kid
  · subst hj
    rw [updPiece_pieces_self]
  · rw [updPiece_pieces_ne _ _ _ _ hj]

theorem castleSide_y (s : GState) (kid : Nat) (c : Color) (y : Int)
    (r : Option Nat) (sqs : List Int) (emp : Bool) (mv : String) (j : Nat) :
    ((castleSide s kid c y r sqs emp mv).pieces j).y = (s.pieces j).y := by
  rcases castleSide_cases s kid c y r sqs emp mv with h | h <;> rw [h]
  by_cases hj : j = kid
  · subst hj
    rw [updPiece_pieces_self]
  · rw [updPiece_pieces_ne _ _ _ _ hj]

theorem castleSide_color (s : GState) (kid : Nat) (c : Color) (y : Int)
    (r : Option Nat) (sqs : List Int) (emp : Bool) (mv : String) (j : Nat) :
    ((castleSide s kid c y r sqs emp mv).pieces j).color = (s.pieces j).color := by
  rcases castleSide_cases s kid c y r sqs emp mv with h | h <;> rw [h]
  by_cases hj : j = kid
  · subst hj
    rw [updPiece_pieces_self]
  · rw [updPiece_pieces_ne _ _ _ _ hj]

theorem castleSide_vMoves_mono (s : GState) (kid : Nat) (c : Color) (y : Int)
    (r : Option Nat) (sqs : List Int) (emp : Bool) (mv : String) (j : Nat)
    (m : MoveT) (hm : m ∈ (s.pieces j).vMoves) :
    m ∈ ((castleSide s kid c y r sqs emp mv).pieces j).vMoves := by
  rcases castleSide_cases s kid c y r sqs emp mv with h | h <;> rw [h]
  · exact hm
  · by_cases hj : j = kid
    · subst hj
      rw [updPiece_pieces_self]
      exact List.mem_append_left _ hm
    · rw [updPiece_pieces_ne _ _ _ _ hj]
      exact hm

theorem get_pieces_color_updPiece (s : GState) (kid : Nat) (f : PieceSt → PieceSt)
    (hf : ∀ p, (f p).color = p.color) (c : Color) :
    get_pieces (updPiece s kid f) [] [c] = get_pieces s [] [c] := by
  unfold get_pieces
  simp only [List.cons_ne_self, if_neg, if_pos, reduceIte]
  have hscan : board_scan (updPiece s kid f) = board_scan s := rfl
  rw [hscan]
  apply List.filter_congr
  intro i _
  by_cases hj : i = kid
  · subst hj
    rw [updPiece_pieces_self, hf]
  · rw [updPiece_pieces_ne _ _ _ _ hj]

/-- Appending one valid move whose destination avoids the position list
preserves square safety. -/
theorem are_squares_safe_vAppend (s : GState) (kid : Nat) (mv : String) (dx dy : Int)
    (pl : List (Int × Int)) (c : Color) (hd : (dx, dy) ∉ pl)
    (h : are_squares_safe s pl c = true) :
    are_squares_safe
      (updPiece s kid (fun p => { p with vMoves := p.vMoves ++ [(mv, dx, dy)] }))
      pl c = true := by
  unfold are_squares_safe at h ⊢
  rw [get_pieces_color_updPiece s kid
    (fun p => { p with vMoves := p.vMoves ++ [(mv, dx, dy)] }) (fun p => rfl) c]
  rw [List.all_eq_true] at h ⊢
  intro i hi
  have hall := h i hi
  by_cases hik : i = kid
  · subst hik
    rw [updPiece_pieces_self]
    simp only [List.all_append, List.all_cons, List.all_nil, Bool.and_eq_true]
    refine ⟨hall, ?_, trivial⟩
    simp [hd]
  · rw [updPiece_pieces_ne _ _ _ _ hik]
    exact hall

theorem castleStep_occ (t : GState) (sq : Int × Int) :
    (castleStep t sq).occ = t.occ := by
  unfold castleStep
  split
  · rfl
  · split
    · rfl
    · rw [castleSide_occ, castleSide_occ]

theorem castleStep_hist (t : GState) (sq : Int × Int) (j : Nat) :
    ((castleStep t sq).pieces j).hist = (t.pieces j).hist := by
  unfold castleStep
  split
  · rfl
  · split
    · rfl
    · rw [castleSide_hist, castleSide_hist]

theorem castleStep_y (t : GState) (sq : Int × Int) (j : Nat) :
    ((castleStep t sq).pieces j).y = (t.pieces j).y := by
  unfold castleStep
  split
  · rfl
  · split
    · rfl
    · rw [castleSide_y, castleSide_y]

theorem castleStep_color (t : GState) (sq : Int × Int) (j : Nat) :
    ((castleStep t sq).pieces j).color = (t.pieces j).color := by
  unfold castleStep
  split
  · rfl
  · split
    · rfl
    · rw [castleSide_color, castleSide_color]

theorem castleStep_vMoves_mono (t : GState) (sq : Int × Int) (j : Nat) (m : MoveT)
    (hm : m ∈ (t.pieces j).vMoves) : m ∈ ((castleStep t sq).pieces j).vMoves := by
  unfold castleStep
  split
  · exact hm
  · split
    · exact hm
    · exact castleSide_vMoves_mono _ _ _ _ _ _ _ _ _ _
        (castleSide_vMoves_mono _ _ _ _ _ _ _ _ _ _ hm)

/-- `castleStep` preserves square safety for any position list avoided by
the destinations of the (at most two) castle moves it can append — all of
which lie on the candidate occupant's own rank. -/
theorem castleStep_safe (t : GState) (sq : Int × Int) (pl : List (Int × Int)) (c : Color)
    (h : are_squares_safe t pl c = true)
    (hy : ∀ i, t.occ sq = some i → ∀ a : Int, (a, (t.pieces i).y) ∉ pl) :
    are_squares_safe (castleStep t sq) pl c = true := by
  unfold castleStep
  split
  · exact h
  · rename_i kid hkid
    split
    · exact h
    · have h1 : are_squares_safe
          (castleSide t kid (otherColor (t.pieces kid).color) ((t.pieces kid).y)
            (t.occ (0, (t.pieces kid).y)) [2, 3, 4]
            ((t.occ (1, (t.pieces kid).y)).isNone && (t.occ (2, (t.pieces kid).y)).isNone &&
              (t.occ (3, (t.pieces kid).y)).isNone) "c_q") pl c = true := by
        rcases castleSide_cases t kid (otherColor (t.pieces kid).color) ((t.pieces kid).y)
            (t.occ (0, (t.pieces kid).y)) [2, 3, 4]
            ((t.occ (1, (t.pieces kid).y)).isNone && (t.occ (2, (t.pieces kid).y)).isNone &&
              (t.occ (3, (t.pieces kid).y)).isNone) "c_q" with hc | hc
        · rw [hc]
          exact h
        · rw [hc]
          exact are_squares_safe_vAppend _ _ _ _ _ _ _ (hy kid hkid 2) h
      rcases castleSide_cases
          (castleSide t kid (otherColor (t.pieces kid).color) ((t.pieces kid).y)
            (t.occ (0, (t.pieces kid).y)) [2, 3, 4]
            ((t.occ (1, (t.pieces kid).y)).isNone && (t.occ (2, (t.pieces kid).y)).isNone &&
              (t.occ (3, (t.pieces kid).y)).isNone) "c_q")
          kid (otherColor (t.pieces kid).color) ((t.pieces kid).y)
          (t.occ (7, (t.pieces kid).y)) [6, 5, 4]
          ((t.occ (5, (t.pieces kid).y)).isNone && (t.occ (6, (t.pieces kid).y)).isNone)
          "c_k" with hc | hc
      · rw [hc]
        exact h1
      · rw [hc]
        exact are_squares_safe_vAppend _ _ _ _ _ _ _ (hy kid hkid 6) h1

/-- When the corner occupant exists with empty history, the intervening
squares were empty and the transit squares are safe, `castleSide` appends
the castle move. -/
theorem castleSide_appends (s : GState) (kid rid : Nat) (c : Color) (y : Int)
    (sqs : List Int) (mv : String)
    (hrh : (s.pieces rid).hist = [])
    (hsafe : are_squares_safe s (sqs.map (fun a => (a, y))) c = true) :
    castleSide s kid c y (some rid) sqs true mv =
      updPiece s kid (fun p => { p with vMoves := p.vMoves ++ [(mv, sqs.headD 0, y)] }) := by
  unfold castleSide
  show (if (s.pieces rid).hist.length ≠ 0 then s
        else if !true then s
        else if are_squares_safe s (sqs.map (fun a => (a, y))) c then
          updPiece s kid (fun p => { p with vMoves := p.vMoves ++ [(mv, sqs.headD 0, y)] })
        else s) = _
  rw [if_neg (show ¬((s.pieces rid).hist.length ≠ 0) from by simp [hrh])]
  rw [if_neg (show ¬((!true) = true) from by simp)]
  rw [if_pos hsafe]

/-- The core of C10: under the position-keyed conditions — occupant of the
candidate square with empty history, corner occupant of the occupant's own
rank with empty history, empty intervening squares, safe transit squares —
`castleStep` appends the castle move to the candidate occupant's valid
moves, with no condition on either piece's type or color. -/
theorem castleStep_adds (t : GState) (sq : Int × Int) (kid rid : Nat) (kingside : Bool)
    (hk : t.occ sq = some kid)
    (hkh : (t.pieces kid).hist = [])
    (hr : t.occ ((if kingside then (7 : Int) else 0), (t.pieces kid).y) = some rid)
    (hrh : (t.pieces rid).hist = [])
    (hemp : if kingside then
        t.occ (5, (t.pieces kid).y) = none ∧ t.occ (6, (t.pieces kid).y) = none
      else
        t.occ (1, (t.pieces kid).y) = none ∧ t.occ (2, (t.pieces kid).y) = none ∧
          t.occ (3, (t.pieces kid).y) = none)
    (hsafe : are_squares_safe t
        (((if kingside then [6, 5, 4] else [2, 3, 4]) : List Int).map
          (fun a => (a, (t.pieces kid).y))) (otherColor (t.pieces kid).color) = true) :
    ((if kingside then "c_k" else "c_q"), (if kingside then (6 : Int) else 2),
        (t.pieces kid).y) ∈ ((castleStep t sq).pieces kid).vMoves := by
  cases kingside with
  | false =>
    simp only [Bool.false_eq_true, if_false, reduceIte] at hr hemp hsafe ⊢
    unfold castleStep
    rw [hk]
    simp only []
    rw [if_neg (show ¬((t.pieces kid).hist.length ≠ 0) from by simp [hkh])]
    have he : ((t.occ (1, (t.pieces kid).y)).isNone &&
        (t.occ (2, (t.pieces kid).y)).isNone &&
        (t.occ (3, (t.pieces kid).y)).isNone) = true := by
      rw [hemp.1, hemp.2.1, hemp.2.2]
      rfl
    rw [hr, he]
    rw [castleSide_appends t kid rid (otherColor (t.pieces kid).color)
      ((t.pieces kid).y) [2, 3, 4] "c_q" hrh hsafe]
    apply castleSide_vMoves_mono
    rw [updPiece_pieces_self]
    simp
  | true =>
    simp only [if_true, reduceIte] at hr hemp hsafe ⊢
    unfold castleStep
    rw [hk]
    simp only []
    rw [if_neg (show ¬((t.pieces kid).hist.length ≠ 0) from by simp [hkh])]
    have hek : ((t.occ (5, (t.pieces kid).y)).isNone &&
        (t.occ (6, (t.pieces kid).y)).isNone) = true := by
      rw [hemp.1, hemp.2]
      rfl
    rw [hr, hek]
    have hrh1 : ((castleSide t kid (otherColor (t.pieces kid).color) ((t.pieces kid).y)
        (t.occ (0, (t.pieces kid).y)) [2, 3, 4]
        ((t.occ (1, (t.pieces kid).y)).isNone && (t.occ (2, (t.pieces kid).y)).isNone &&
          (t.occ (3, (t.pieces kid).y)).isNone) "c_q").pieces rid).hist = [] := by
      rw [castleSide_hist]
      exact hrh
    have hsafe1 : are_squares_safe
        (castleSide t kid (otherColor (t.pieces kid).color) ((t.pieces kid).y)
          (t.occ (0, (t.pieces kid).y)) [2, 3, 4]
          ((t.occ (1, (t.pieces kid).y)).isNone && (t.occ (2, (t.pieces kid).y)).isNone &&
            (t.occ (3, (t.pieces kid).y)).isNone) "c_q")
        ([6, 5, 4].map (fun a => (a, (t.pieces kid).y)))
        (otherColor (t.pieces kid).color) = true := by
      rcases castleSide_cases t kid (otherColor (t.pieces kid).color) ((t.pieces kid).y)
          (t.occ (0, (t.pieces kid).y)) [2, 3, 4]
          ((t.occ (1, (t.pieces kid).y)).isNone && (t.occ (2, (t.pieces kid).y)).isNone &&
            (t.occ (3, (t.pieces kid).y)).isNone) "c_q" with hc | hc
      · rw [hc]
        exact hsafe
      · rw [hc]
        refine are_squares_safe_vAppend _ _ _ _ _ _ _ ?_ hsafe
        simp
    rw [castleSide_appends _ kid rid (otherColor (t.pieces kid).color)
      ((t.pieces kid).y) [6, 5, 4] "c_k" hrh1 hsafe1]
    rw [updPiece_pieces_self]
    simp

/-- C10. The castling evaluator keys only on positions and histories:
for ANY piece (any type, any color — e.g. one newly created by promotion)
standing on (4,0) or (4,7) with empty move history, an unmoved occupant of
the corner square at file 0 or 7 of that rank (type and color again
unexamined), empty intervening squares and safe transit squares, the
corresponding castle move is appended to that piece's valid-move set.  For
the (4,7) candidate the (4,0) iteration runs first; the coherence
hypothesis `h40` (that piece's stored rank is 0) keeps its possible
appends, whose destinations lie on rank 0, away from the rank-7 transit
squares. -/
theorem castles_ignore_identity (s : GState) (sq : Int × Int) (kid rid : Nat)
    (kingside : Bool)
    (hsq : sq = ((4 : Int), (0 : Int)) ∨ sq = ((4 : Int), (7 : Int)))
    (hk : s.occ sq = some kid)
    (hky : (s.pieces kid).y = sq.2)
    (hkh : (s.pieces kid).hist = [])
    (hr : s.occ ((if kingside then (7 : Int) else 0), sq.2) = some rid)
    (hrh : (s.pieces rid).hist = [])
    (hemp : if kingside then
        s.occ (5, sq.2) = none ∧ s.occ (6, sq.2) = none
      else
        s.occ (1, sq.2) = none ∧ s.occ (2, sq.2) = none ∧ s.occ (3, sq.2) = none)
    (hsafe : are_squares_safe s
        (((if kingside then [6, 5, 4] else [2, 3, 4]) : List Int).map (fun a => (a, sq.2)))
        (otherColor (s.pieces kid).color) = true)
    (h40 : sq = ((4 : Int), (7 : Int)) →
      ∀ i, s.occ ((4 : Int), (0 : Int)) = some i → (s.pieces i).y = 0) :
    ((if kingside then "c_k" else "c_q"), (if kingside then (6 : Int) else 2), sq.2) ∈
      ((get_valid_castles s).pieces kid).vMoves := by
  unfold get_valid_castles
  rcases hsq with h4 | h4
  · subst h4
    have hmem := castleStep_adds s (4, 0) kid rid kingside hk hkh
      (by rw [hky]; exact hr) hrh
      (by rw [hky]; exact hemp)
      (by rw [hky]; exact hsafe)
    rw [hky] at hmem
    exact castleStep_vMoves_mono _ (4, 7) _ _ hmem
  · subst h4
    have ho := castleStep_occ s ((4 : Int), (0 : Int))
    have hc := castleStep_color s ((4 : Int), (0 : Int)) kid
    have hy1 := castleStep_y s ((4 : Int), (0 : Int)) kid
    have hsafe1 : are_squares_safe (castleStep s (4, 0))
        (((if kingside then [6, 5, 4] else [2, 3, 4]) : List Int).map
          (fun a => (a, (((4 : Int), (7 : Int)) : Int × Int).2)))
        (otherColor (s.pieces kid).color) = true := by
      apply castleStep_safe s (4, 0) _ _ hsafe
      intro i hi a hmema
      rcases List.mem_map.mp hmema with ⟨b, _, heq⟩
      have hsnd := congrArg Prod.snd heq
      simp only [] at hsnd
      rw [h40 rfl i hi] at hsnd
      exact absurd hsnd (by decide)
    have hmem := castleStep_adds (castleStep s (4, 0)) (4, 7) kid rid kingside
      (by rw [ho]; exact hk)
      (by rw [castleStep_hist]; exact hkh)
      (by rw [ho, hy1, hky]; exact hr)
      (by rw [castleStep_hist]; exact hrh)
      (by rw [ho, hy1, hky]; exact hemp)
      (by rw [hc, hy1, hky]; exact hsafe1)
    rw [hy1, hky] at hmem
    exact hmem

/-- Witness for C10: a black KNIGHT standing on (4,0) (as a promoted piece
would) with an enemy WHITE rook on (0,0), both never moved, intervening
squares empty and transit squares safe — the queenside castle move is
appended to the knight's valid moves despite it being neither a king nor
of the corner piece's color. -/
theorem castles_ignore_identity_witness :
    (c10_state.pieces 0).ptype = PType.knight ∧
    (c10_state.pieces 0).color ≠ (c10_state.pieces 1).color ∧
    ("c_q", (2 : Int), (0 : Int)) ∈ ((get_valid_castles c10_state).pieces 0).vMoves :=
  ⟨by decide, by decide,
    castles_ignore_identity c10_state (4, 0) 0 1 false (Or.inl rfl) (by decide) (by decide)
      (by decide) (by decide) (by decide) ⟨by decide, by decide, by decide⟩ (by decide)
      (fun hcontra => absurd hcontra (by decide))⟩

/-! ## Heuristic resignation (C8) -/

/-- C8 counterexample. The human side holds a lone BISHOP — not its king —
and the AI a queen, with no draw pending: the spec-worded resignation
condition ("the human side's alive pieces are only its king" plus AI
material) is false, yet `game_over_check` returns (true, the resignation
reason) rather than the claimed (false, ""): the code tests only
`len(human_pieces) > 1` and never looks at which piece the human has
left.  Kingless human sides are reachable in this engine, which reports
check but never forbids moves into check, so the king is capturable. -/
theorem game_over_resignation_cex :
    c8_cex_state.turn_num - c8_cex_state.last_capture_turn < 100 ∧
    human_types c8_cex_state = [PType.bishop] ∧
    ¬ resign_spec c8_cex_state ∧
    game_over_check c8_cex_state = (true, resign_string) := by
  refine ⟨by decide, by decide, by decide, by decide⟩

/-- C8 amended. When the no-progress draw condition does not hold,
`game_over_check` returns (true, resignation reason) exactly when the
human side has at most ONE alive piece — whatever that piece is; only
when it is the king does this coincide with "only its king" — and the
AI's material includes a queen or a rook, or at least two bishops, or a
knight together with a bishop; in every other case — a lone AI knight
included — it returns (false, ""). -/
theorem game_over_resignation (s : GState)
    (hdraw : s.turn_num - s.last_capture_turn < 100) :
    game_over_check s =
      if resign_amended s then (true, resign_string) else (false, "") := by
  unfold game_over_check resign_amended
  rw [if_neg (by omega : ¬ s.turn_num - s.last_capture_turn ≥ 100)]
  by_cases hlen : (human_types s).length > 1
  · rw [if_pos hlen, if_neg]
    intro hr
    omega
  · rw [if_neg hlen]
    have h1 : (human_types s).length ≤ 1 := by omega
    split_ifs <;> first | rfl | tauto

/-- Witness for C8: a lone white human king against a black AI queen, no
draw pending. -/
theorem game_over_resignation_witness :
    c8_state.turn_num - c8_state.last_capture_turn < 100 ∧
    game_over_check c8_state =
      (if resign_amended c8_state then (true, resign_string) else (false, "")) :=
  ⟨by decide, game_over_resignation c8_state (by decide)⟩

/-! ## Turn/ply bookkeeping (C3)

Every function of the recomputation pipeline leaves `turn`, `nonturn` and
`turn_num` unchanged (`ctlEq`); `exec_core` is the only place they change,
and `undo_ply` reverses exactly that change before the recursive rook
relocation. -/

/-- An option whose `isSome` evaluates to `true` is `some` of its `getD`:
lets concrete `move_piece` results discharge `= some _` hypotheses through
the kernel evaluator. -/
theorem opt_eq_some_getD {α : Type} (x : Option α) (d : α) (h : x.isSome = true) :
    x = some (x.getD d) := by
  cases x with
  | none => simp at h
  | some a => rfl

theorem ctlEq_trans {s t u : GState} (h1 : ctlEq s t) (h2 : ctlEq t u) : ctlEq s u :=
  ⟨h2.1.trans h1.1, h2.2.1.trans h1.2.1, h2.2.2.trans h1.2.2⟩

theorem ctl_foldl {α : Type} (step : GState → α → GState)
    (h : ∀ t a, ctlEq t (step t a)) : ∀ (L : List α) (s : GState), ctlEq s (L.foldl step s) := by
  intro L
  induction L with
  | nil => intro s; exact ⟨rfl, rfl, rfl⟩
  | cons a t ih => intro s; exact ctlEq_trans (h s a) (ih (step s a))

theorem ctl_pawnMoveStep (t : GState) (pid : Nat) (m : MoveT) :
    ctlEq t (pawnMoveStep t pid m) := by
  simp only [pawnMoveStep]
  repeat' split
  all_goals exact ⟨rfl, rfl, rfl⟩

theorem ctl_otherMoveStep (t : GState) (pid : Nat) (m : MoveT) :
    ctlEq t (otherMoveStep t pid m) := by
  simp only [otherMoveStep]
  repeat' split
  all_goals exact ⟨rfl, rfl, rfl⟩

theorem ctl_get_valid_moves (s : GState) : ctlEq s (get_valid_moves s) := by
  unfold get_valid_moves
  apply ctl_foldl
  intro t i
  split
  · exact ctl_foldl _ (fun u m => ctl_pawnMoveStep u i m) _ t
  · exact ctl_foldl _ (fun u m => ctl_otherMoveStep u i m) _ t

theorem ctl_get_unobstructed_moves (s : GState) : ctlEq s (get_unobstructed_moves s) := by
  unfold get_unobstructed_moves
  exact ctl_foldl uoStep (fun _ _ => ⟨rfl, rfl, rfl⟩) _ s

theorem ctl_reset_info (s : GState) : ctlEq s (reset_info s) := by
  unfold reset_info
  exact ctl_foldl (fun acc i => updPiece acc i clearDerived) (fun _ _ => ⟨rfl, rfl, rfl⟩) _ s

theorem ctl_castleSide (t : GState) (kid : Nat) (c : Color) (y : Int)
    (r : Option Nat) (sqs : List Int) (emp : Bool) (mv : String) :
    ctlEq t (castleSide t kid c y r sqs emp mv) := by
  simp only [castleSide]
  repeat' split
  all_goals exact ⟨rfl, rfl, rfl⟩

theorem ctl_castleStep (t : GState) (sq : Int × Int) : ctlEq t (castleStep t sq) := by
  simp only [castleStep]
  split
  · exact ⟨rfl, rfl, rfl⟩
  · split
    · exact ⟨rfl, rfl, rfl⟩
    · exact ctlEq_trans (ctl_castleSide ..) (ctl_castleSide ..)

theorem ctl_get_valid_castles (s : GState) : ctlEq s (get_valid_castles s) :=
  ctlEq_trans (ctl_castleStep s (4, 0)) (ctl_castleStep _ (4, 7))

theorem ctl_board_refresh (s : GState) : ctlEq s (board_refresh s) :=
  ctlEq_trans (ctl_reset_info s) (ctlEq_trans (ctl_get_unobstructed_moves _)
    (ctlEq_trans (ctl_get_valid_moves _) (ctl_get_valid_castles _)))

theorem ctl_promo_step (s : GState) (pid : Nat) (dest : Int × Int)
    (human : Bool) (promo : PType) : ctlEq s (promo_step s pid dest human promo) := by
  simp only [promo_step]
  split
  · exact ⟨rfl, rfl, rfl⟩
  · exact ⟨rfl, rfl, rfl⟩

theorem exec_core_ctl (s : GState) (pid : Nat) (dest : Int × Int) :
    (exec_core s pid dest).turn = s.nonturn ∧
    (exec_core s pid dest).nonturn = s.turn ∧
    (exec_core s pid dest).turn_num = s.turn_num + 1 := by
  unfold exec_core updPiece
  rcases h : s.occ dest with _ | did <;> simp [h]

/-- C3. Any executed call of `move_piece` — castle included — toggles
the whose-turn indicator exactly once (the new `turn` is the old
`nonturn` and vice versa) and increases the ply counter by exactly 1: the
castle branch undoes the king relocation's toggle/increment before the
recursive rook relocation, whose own toggle/increment then nets the
compound move to a single ply. -/
theorem move_piece_ply_increment :
    ∀ (fuel : Nat) (s : GState) (pid : Nat) (dest : Int × Int)
      (validate human : Bool) (promo : PType) (s' : GState),
      move_piece fuel s pid dest validate human promo = some s' →
      s'.turn = s.nonturn ∧ s'.nonturn = s.turn ∧ s'.turn_num = s.turn_num + 1 := by
  intro fuel
  induction fuel with
  | zero =>
    intro s pid dest validate human promo s' h
    exact absurd h (by simp [move_piece])
  | succ n ih =>
    intro s pid dest validate human promo s' h
    rw [move_piece] at h
    split at h
    · exact absurd h (by simp)
    · split at h
      · exact absurd h (by simp)
      · rename_i mv hmv
        split at h
        · -- castle branch
          split at h
          · exact absurd h (by simp)
          · rename_i rid hrid
            split at h
            · exact absurd h (by simp)
            · rename_i s5 hrec
              have h5 := ih _ rid _ false true promo s5 hrec
              have hc := exec_core_ctl s pid dest
              have hrest : ctlEq { s5 with move_history := s5.move_history.dropLast }
                  s' := by
                rw [← Option.some_inj.mp h]
                exact ctlEq_trans (ctl_promo_step ..) (ctl_board_refresh _)
              have e1 : s'.turn = s5.turn := hrest.1
              have e2 : s'.nonturn = s5.nonturn := hrest.2.1
              have e3 : s'.turn_num = s5.turn_num := hrest.2.2
              refine ⟨?_, ?_, ?_⟩
              · rw [e1, h5.1]
                show (exec_core s pid dest).turn = s.nonturn
                exact hc.1
              · rw [e2, h5.2.1]
                show (exec_core s pid dest).nonturn = s.turn
                exact hc.2.1
              · rw [e3, h5.2.2]
                show (exec_core s pid dest).turn_num - 1 + 1 = s.turn_num + 1
                rw [hc.2.2]
                omega
        · -- plain branch
          have hrest : ctlEq (exec_core s pid dest) s' := by
            rw [← Option.some_inj.mp h]
            exact ctlEq_trans (ctl_promo_step ..) (ctl_board_refresh _)
          have hc := exec_core_ctl s pid dest
          exact ⟨hrest.1.trans hc.1, hrest.2.1.trans hc.2.1, hrest.2.2.trans hc.2.2⟩

/-! ## Obstruction pass-through (C5)

`get_unobstructed_moves` sends knights and kings through unchanged, but a
pawn takes the sliding `else` branch: its candidates are filtered by the
emptiness of the squares strictly between origin and destination, which
drops a double advance whose intervening square is occupied (the three
one-step candidates have an empty between-sequence and always survive). -/

theorem get_btwn_adjacent (x y a b : Int) (h1 : a - x ≤ 1) (h2 : x - a ≤ 1)
    (h3 : b - y ≤ 1) (h4 : y - b ≤ 1) : get_btwn (x, y) (a, b) = [] := by
  have hx0 : (a - (x + 1)).toNat = 0 := by omega
  have hx1 : (x - 1 - a).toNat = 0 := by omega
  have hy0 : (b - (y + 1)).toNat = 0 := by omega
  have hy1 : (y - 1 - b).toNat = 0 := by omega
  simp [get_btwn, rangeAsc, rangeDesc, hx0, hx1, hy0, hy1]

theorem foldl_uoStep_occ (L : List Nat) (s : GState) : (L.foldl uoStep s).occ = s.occ := by
  induction L generalizing s with
  | nil => rfl
  | cons a t ih => exact ih (uoStep s a)

theorem uoStep_pieces_ne (s : GState) (i j : Nat) (h : j ≠ i) :
    (uoStep s i).pieces j = s.pieces j := by
  simp [uoStep, updPiece, h]

theorem foldl_uoStep_pieces_ne (L : List Nat) (s : GState) (j : Nat) (h : j ∉ L) :
    (L.foldl uoStep s).pieces j = s.pieces j := by
  induction L generalizing s with
  | nil => rfl
  | cons a t ih =>
    rw [List.foldl_cons, ih _ (fun hm => h (List.mem_cons_of_mem a hm)),
      uoStep_pieces_ne]
    intro he
    exact h (he ▸ List.mem_cons_self a t)

/-- The piece visited by the `get_unobstructed_moves` fold receives
exactly the unobstructed moves computed from its own in-bounds moves and
the (unchanged) board occupancy. -/
theorem get_unobstructed_pieces (s : GState) (pid : Nat)
    (hmem : pid ∈ s.alive) (hnd : s.alive.Nodup) :
    (get_unobstructed_moves s).pieces pid =
      { s.pieces pid with
          uoMoves := (s.pieces pid).uoMoves ++ uoCompute s.occ (s.pieces pid) } := by
  obtain ⟨l1, l2, hsplit⟩ := List.append_of_mem hmem
  have hnd2 := hsplit ▸ hnd
  rw [List.nodup_append] at hnd2
  have h1 : pid ∉ l1 := fun hm => hnd2.2.2 hm (List.mem_cons_self pid l2)
  have h2 : pid ∉ l2 := (List.nodup_cons.mp hnd2.2.1).1
  unfold get_unobstructed_moves
  rw [hsplit, List.foldl_append, List.foldl_cons]
  have hp : (l1.foldl uoStep s).pieces pid = s.pieces pid :=
    foldl_uoStep_pieces_ne l1 s pid h1
  have ho : (l1.foldl uoStep s).occ = s.occ := foldl_uoStep_occ l1 s
  rw [foldl_uoStep_pieces_ne l2 _ pid h2]
  simp [uoStep, updPiece, hp, ho]

/-- C5 amended. In the obstruction step, knight and king candidates
pass through unchanged regardless of occupancy; a pawn's candidates are
instead filtered — like the sliding pieces — by emptiness of the squares
strictly between origin and destination, which can drop only the double
advance: each of the pawn's other generated candidates is one step away
and has an empty between-sequence, so it always survives. -/
theorem unobstructed_pass_through (s : GState) (pid : Nat)
    (hmem : pid ∈ s.alive) (hnd : s.alive.Nodup)
    (hzero : (s.pieces pid).uoMoves = []) :
    (((s.pieces pid).ptype = PType.knight ∨ (s.pieces pid).ptype = PType.king) →
      ((get_unobstructed_moves s).pieces pid).uoMoves = (s.pieces pid).ibMoves) ∧
    ((s.pieces pid).ptype = PType.pawn →
      ((get_unobstructed_moves s).pieces pid).uoMoves =
        (s.pieces pid).ibMoves.filter (fun m =>
          (get_btwn ((s.pieces pid).x, (s.pieces pid).y) (m.2.1, m.2.2)).all
            (fun q => (s.occ q).isNone))) ∧
    (∀ m ∈ get_pawn_ib_moves (s.pieces pid), containsTwo m.1 = false →
      get_btwn ((s.pieces pid).x, (s.pieces pid).y) (m.2.1, m.2.2) = []) := by
  have hm := get_unobstructed_pieces s pid hmem hnd
  refine ⟨?_, ?_, ?_⟩
  · intro ht
    rw [hm]
    simp [uoCompute, ht, hzero]
  · intro ht
    have hne : ¬((s.pieces pid).ptype = PType.knight ∨
        (s.pieces pid).ptype = PType.king) := by
      rw [ht]; rintro (hk | hk) <;> exact absurd hk (by decide)
    rw [hm]
    simp only [uoCompute, if_neg hne, hzero, List.nil_append]
  · intro m hmem2 htwo
    unfold get_pawn_ib_moves at hmem2
    replace hmem2 := List.mem_of_mem_filter hmem2
    by_cases hc : (s.pieces pid).color = Color.black <;>
      simp only [hc, if_pos, if_neg, if_true, if_false, ite_true, ite_false,
        List.mem_cons, List.not_mem_nil, or_false, reduceIte] at hmem2 <;>
      rcases hmem2 with h | h | h | h <;>
      subst h <;>
      dsimp only at htwo ⊢ <;>
      first
      | (exact absurd htwo (by decide))
      | (exact get_btwn_adjacent _ _ _ _ (by omega) (by omega) (by omega) (by omega))

/-- C5 counterexample. A white pawn on a2 with a piece directly in
front of it on a3: the pawn's in-bounds candidates are the single advance,
the double advance and the east diagonal, but its unobstructed set drops
the double advance ("n_2", whose intervening square a3 is occupied) — so a
pawn's unobstructed move collection does NOT always equal its in-bounds
collection, refuting the claim that pawn candidates pass through
unchanged regardless of the occupancy of intervening squares. -/
theorem pawn_uo_filtered_cex :
    (c5_raw.pieces 0).ibMoves = [("n_1", 0, 2), ("n_2", 0, 3), ("ne_1", 1, 2)] ∧
    ((get_unobstructed_moves c5_raw).pieces 0).uoMoves = [("n_1", 0, 2), ("ne_1", 1, 2)] ∧
    ((get_unobstructed_moves c5_raw).pieces 0).uoMoves ≠ (c5_raw.pieces 0).ibMoves := by
  refine ⟨by decide, by decide, by decide⟩

/-- Witness for the amended C5: a knight surrounded by an occupied
adjacent square keeps its full in-bounds set as its unobstructed set. -/
theorem unobstructed_pass_through_witness :
    (0 ∈ c5_wit.alive ∧ c5_wit.alive.Nodup) ∧
    ((get_unobstructed_moves c5_wit).pieces 0).uoMoves = (c5_wit.pieces 0).ibMoves :=
  ⟨⟨by decide, by decide⟩,
    (unobstructed_pass_through c5_wit 0 (by decide) (by decide) rfl).1
      (Or.inl (by decide))⟩

/-- Witness for C3: a concrete executed rook move a1→a6; the hypothesis
(the call returns a state) is discharged by evaluation. -/
theorem move_piece_ply_increment_witness :
    c3_res.turn = c3_s0.nonturn ∧ c3_res.nonturn = c3_s0.turn ∧
    c3_res.turn_num = c3_s0.turn_num + 1 :=
  move_piece_ply_increment 2 c3_s0 0 (0, 5) true true PType.queen c3_res
    (opt_eq_some_getD _ default (by decide))

end ChessJerk




